import Mathlib

/-!
# Verification of the breakout-style game core in `src/frontend/index.html`

Shallow embedding of the simulation core (ball / paddle / brick grid /
game-state flags and the per-frame `gameLoop` tick) of the candy-breakout
game, together with proofs about its collision resolution, AI paddle
control, state machine and invariants.

Modelling conventions:
* JS numbers that hold positions and velocities are modelled as `ℚ`.
  All constants in the source are integers, and the only divisions are by
  powers of two and by `ball.dy`, so `ℚ` is exact wherever the divisor is
  nonzero.  Lean's `ℚ` division is total with `q / 0 = 0`, whereas JS
  produces a non-finite value; every statement made below about the
  `dy = 0` case depends only on *whether an assignment happens*, which is
  the same under both semantics (the source performs the assignment
  unconditionally), not on the numeric value produced.
* `Math.random() > 0.5` in `resetBall` is modelled by an explicit
  `rand : Bool` parameter threaded through the tick.
* Brick `x`/`y` coordinates are always `c * 70 + 30` and `r * 30 + 40`:
  both the initial construction loop and `resetLevel` write exactly these
  values and nothing ever mutates them, so bricks are stored as
  (status, type) pairs and positions are recomputed from the grid index.
  The JS 2-dimensional array `bricks[c][r]` is stored as a flat list of
  `columnCount * rowCount` cells at index `c * rowCount + r`, in the same
  scan order (outer `c`, inner `r`) used by every loop in the source.
* `playSound(freq, …)` calls are recorded by appending the frequency to a
  `sounds` event list in the state; `draw()` mutates no simulation state
  and is not part of the transition function.  `alert` and
  `document.location.reload()` on game over are external effects (the
  restart), not state mutations.
-/

/-- `canvas.width`. -/
def canvasWidth : ℚ := 480

/-- `canvas.height`. -/
def canvasHeight : ℚ := 320

/-- `ball.radius`. -/
def ballRadius : ℚ := 8

/-- `paddle.width`. -/
def paddleWidth : ℚ := 80

/-- `paddle.y = canvas.height - 20`. -/
def paddleY : ℚ := canvasHeight - 20

/-- `paddle.speed`. -/
def paddleSpeed : ℚ := 8

/-- `brickConfig.rowCount`. -/
def brickRowCount : Nat := 3

/-- `brickConfig.columnCount`. -/
def brickColumnCount : Nat := 7

/-- `brickConfig.width`. -/
def brickWidth : ℚ := 60

/-- `brickConfig.height`. -/
def brickHeight : ℚ := 20

/-- `brickConfig.padding`. -/
def brickPadding : ℚ := 10

/-- `brickConfig.offsetTop`. -/
def brickOffsetTop : ℚ := 40

/-- `brickConfig.offsetLeft`. -/
def brickOffsetLeft : ℚ := 30

/-- A brick cell: `status` (1 = alive, 0 = destroyed) and `ty`
(the JS `type` field: 1 = normal, 2 = reinforced, 3 = bonus). -/
structure Brick where
  status : Nat
  ty : Nat
  deriving Repr, DecidableEq

/-- The ball record (position and velocity; the radius is the constant
`ballRadius`). -/
structure Ball where
  x : ℚ
  y : ℚ
  dx : ℚ
  dy : ℚ
  deriving Repr, DecidableEq

/-- The whole mutable game state: ball, paddle `x` (its `y`, width, height
and speed are constants), the flat brick grid, and the `gameState` record
(score / lives / level / isAI / gameOver / paused), plus the list of sound
frequencies emitted so far (in emission order). -/
structure GState where
  ball : Ball
  paddleX : ℚ
  bricks : List Brick
  score : ℤ
  lives : ℤ
  level : ℤ
  isAI : Bool
  gameOver : Bool
  paused : Bool
  sounds : List Nat
  deriving Repr, DecidableEq

/-- `brickX = c * (brickConfig.width + brickConfig.padding) + brickConfig.offsetLeft`. -/
def brickX (c : Nat) : ℚ := (c : ℚ) * (brickWidth + brickPadding) + brickOffsetLeft

/-- `brickY = r * (brickConfig.height + brickConfig.padding) + brickConfig.offsetTop`. -/
def brickY (r : Nat) : ℚ := (r : ℚ) * (brickHeight + brickPadding) + brickOffsetTop

/-- Flat index of grid cell `(c, r)` in the brick list. -/
def brickIdx (cr : Nat × Nat) : Nat := cr.1 * brickRowCount + cr.2

/-- The freshly generated brick grid: every cell `status = 1` and
`type = types[r]` with `types = [1, 2, 3]` (row-indexed).  This is what
both the initial construction loop and `resetLevel` build. -/
def initBricks : List Brick :=
  (List.range brickColumnCount).flatMap
    (fun _ => (List.range brickRowCount).map (fun r => { status := 1, ty := r + 1 }))

/-- The scan order of every brick loop in the source: outer column loop,
inner row loop. -/
def scanIndices : List (Nat × Nat) :=
  (List.range brickColumnCount).flatMap
    (fun c => (List.range brickRowCount).map (fun r => (c, r)))

/-- `checkLevelComplete()`: true iff no brick has `status === 1`. -/
def checkLevelComplete (st : GState) : Bool :=
  st.bricks.all (fun b => !(b.status == 1))

/-- `resetBall()`: recenter the ball, `dx = ±4` by coin flip, `dy = -4`. -/
def resetBall (rand : Bool) (st : GState) : GState :=
  { st with ball := { x := canvasWidth / 2, y := canvasHeight - 30,
                      dx := if rand then 4 else -4, dy := -4 } }

/-- `resetLevel()`: reset the ball and regenerate the whole brick grid. -/
def resetLevel (rand : Bool) (st : GState) : GState :=
  { resetBall rand st with bricks := initBricks }

/-- The point-in-rectangle test of `collisionDetection` for cell `(c, r)`:
`ball.x > brick.x && ball.x < brick.x + width && ball.y > brick.y && ball.y < brick.y + height`. -/
def overlapsBrick (b : Ball) (c r : Nat) : Bool :=
  decide (b.x > brickX c ∧ b.x < brickX c + brickWidth ∧
          b.y > brickY r ∧ b.y < brickY r + brickHeight)

/-- The combined guard of the two nested conditions in `collisionDetection`
(`brick.status === 1` and the overlap test): cell `(c, r)` is *resolved*
("fires") in the current state. -/
def fires (st : GState) (cr : Nat × Nat) : Bool :=
  (st.bricks.getD (brickIdx cr) ⟨0, 0⟩).status == 1 &&
    overlapsBrick st.ball cr.1 cr.2

/-- The body of a brick resolution (lines 155-169): bounce `dy`, then the
type-specific effect — normal: destroy, +10, sound 440; reinforced:
downgrade to normal, sound 220; otherwise (bonus): destroy, +30, sound 880. -/
def brickHitEffect (st : GState) (cr : Nat × Nat) : GState :=
  let i := brickIdx cr
  let brick := st.bricks.getD i ⟨0, 0⟩
  let st1 := { st with ball := { st.ball with dy := -st.ball.dy } }
  if brick.ty = 1 then
    { st1 with bricks := st1.bricks.set i { brick with status := 0 },
               score := st1.score + 10, sounds := st1.sounds ++ [440] }
  else if brick.ty = 2 then
    { st1 with bricks := st1.bricks.set i { brick with ty := 1 },
               sounds := st1.sounds ++ [220] }
  else
    { st1 with bricks := st1.bricks.set i { brick with status := 0 },
               score := st1.score + 30, sounds := st1.sounds ++ [880] }

/-- One iteration of the `collisionDetection` double loop at cell `(c, r)`:
if the cell fires, apply the hit effect, then (lines 172-175) if the level
is now complete, increment `level` and run `resetLevel`. -/
def collisionStep (rand : Bool) (st : GState) (cr : Nat × Nat) : GState :=
  if fires st cr then
    let st1 := brickHitEffect st cr
    if checkLevelComplete st1 then
      resetLevel rand { st1 with level := st1.level + 1 }
    else st1
  else st

/-- `collisionDetection()`: the double loop over all cells in scan order.
Note the source has no `break`: every cell is visited even after a hit. -/
def collisionDetection (rand : Bool) (st : GState) : GState :=
  scanIndices.foldl (collisionStep rand) st

/-- `aiControl()`: when AI is on, project the ball to the paddle plane and
recenter the paddle there, then clamp to the canvas.  The source has no
guard on `ball.dy = 0`: the division and the assignment to `paddle.x`
happen unconditionally (see the modelling note on `ℚ` division). -/
def aiControl (st : GState) : GState :=
  if st.isAI = false then st
  else
    let predictX := st.ball.x + st.ball.dx * ((paddleY - st.ball.y) / st.ball.dy)
    let px := predictX - paddleWidth / 2
    let px := if px < 0 then 0
              else if px + paddleWidth > canvasWidth then canvasWidth - paddleWidth
              else px
    { st with paddleX := px }

/-- Lines 244-246 of `gameLoop`: integrate the ball by its velocity. -/
def moveBall (st : GState) : GState :=
  { st with ball := { st.ball with x := st.ball.x + st.ball.dx,
                                   y := st.ball.y + st.ball.dy } }

/-- Lines 249-282 of `gameLoop` (applied to the post-integration state):
side-wall `dx` reflection, then top-wall `dy` reflection, else the
bottom-crossing branch — paddle hit (steered rebound) or miss
(life loss, then game over or ball reset). -/
def bouncePhase (rand : Bool) (st : GState) : GState :=
  let st :=
    if st.ball.x + st.ball.dx > canvasWidth - ballRadius ∨
       st.ball.x + st.ball.dx < ballRadius then
      { st with ball := { st.ball with dx := -st.ball.dx }, sounds := st.sounds ++ [330] }
    else st
  if st.ball.y + st.ball.dy < ballRadius then
    { st with ball := { st.ball with dy := -st.ball.dy }, sounds := st.sounds ++ [440] }
  else if st.ball.y + st.ball.dy > canvasHeight - ballRadius then
    if st.ball.x > st.paddleX ∧ st.ball.x < st.paddleX + paddleWidth then
      let hitPosition := (st.ball.x - (st.paddleX + paddleWidth / 2)) / (paddleWidth / 2)
      { st with ball := { st.ball with dx := hitPosition * 5, dy := -|st.ball.dy| },
                sounds := st.sounds ++ [550] }
    else
      let st := { st with lives := st.lives - 1, sounds := st.sounds ++ [110] }
      if st.lives ≤ 0 then { st with gameOver := true }
      else resetBall rand st
  else st

/-- `gameLoop()`: one tick.  No-op when `gameOver` or `paused`; otherwise
(in source order) move the ball, wall / paddle / miss resolution, then
`aiControl()`, then `collisionDetection()` (`draw()` renders and mutates
nothing). -/
def gameLoop (rand : Bool) (st : GState) : GState :=
  if st.gameOver || st.paused then st
  else
    let st := { st with ball := { st.ball with x := st.ball.x + st.ball.dx,
                                               y := st.ball.y + st.ball.dy } }
    let st :=
      if st.ball.x + st.ball.dx > canvasWidth - ballRadius ∨
         st.ball.x + st.ball.dx < ballRadius then
        { st with ball := { st.ball with dx := -st.ball.dx }, sounds := st.sounds ++ [330] }
      else st
    let st :=
      if st.ball.y + st.ball.dy < ballRadius then
        { st with ball := { st.ball with dy := -st.ball.dy }, sounds := st.sounds ++ [440] }
      else if st.ball.y + st.ball.dy > canvasHeight - ballRadius then
        if st.ball.x > st.paddleX ∧ st.ball.x < st.paddleX + paddleWidth then
          let hitPosition := (st.ball.x - (st.paddleX + paddleWidth / 2)) / (paddleWidth / 2)
          { st with ball := { st.ball with dx := hitPosition * 5, dy := -|st.ball.dy| },
                    sounds := st.sounds ++ [550] }
        else
          let st := { st with lives := st.lives - 1, sounds := st.sounds ++ [110] }
          if st.lives ≤ 0 then { st with gameOver := true }
          else resetBall rand st
      else st
    collisionDetection rand (aiControl st)

/-- ArrowRight keydown handler: `paddle.x = min(paddle.x + speed, width - paddleWidth)`. -/
def keyRight (st : GState) : GState :=
  { st with paddleX := min (st.paddleX + paddleSpeed) (canvasWidth - paddleWidth) }

/-- ArrowLeft keydown handler: `paddle.x = max(paddle.x - speed, 0)`. -/
def keyLeft (st : GState) : GState :=
  { st with paddleX := max (st.paddleX - paddleSpeed) 0 }

/-- Space keydown handler: on game over, reload (external restart, not a
state mutation here); otherwise toggle `paused`, and when unpausing run one
`gameLoop` tick immediately. -/
def keySpace (rand : Bool) (st : GState) : GState :=
  if st.gameOver then st
  else
    let st := { st with paused := !st.paused }
    if st.paused = false then gameLoop rand st else st

/-- mousemove handler: only active when AI is off, and only for in-canvas
pointer positions; recenter then clamp. -/
def mouseMove (relativeX : ℚ) (st : GState) : GState :=
  if st.isAI = false then
    if relativeX > 0 ∧ relativeX < canvasWidth then
      let px := relativeX - paddleWidth / 2
      { st with paddleX := max 0 (min px (canvasWidth - paddleWidth)) }
    else st
  else st

/-- toggle-AI button handler. -/
def toggleAI (st : GState) : GState := { st with isAI := !st.isAI }

/-- The state built by the top-level declarations (ball, paddle, bricks,
`gameState`) before the startup call `resetLevel()`. -/
def initState : GState :=
  { ball := { x := canvasWidth / 2, y := canvasHeight - 30, dx := 4, dy := -4 },
    paddleX := (canvasWidth - 80) / 2,
    bricks := initBricks,
    score := 0, lives := 3, level := 1,
    isAI := true, gameOver := false, paused := false, sounds := [] }

/-- The state at the first `gameLoop()` call: startup runs `resetLevel()`
(whose `resetBall` flips the coin for the ball direction). -/
def startState (rand : Bool) : GState := resetLevel rand initState

/-- Reachable states: the startup state, closed under ticks and under all
external input handlers. -/
inductive Reachable : GState → Prop where
  | start (rand : Bool) : Reachable (startState rand)
  | tick (rand : Bool) {st : GState} : Reachable st → Reachable (gameLoop rand st)
  | kRight {st : GState} : Reachable st → Reachable (keyRight st)
  | kLeft {st : GState} : Reachable st → Reachable (keyLeft st)
  | kSpace (rand : Bool) {st : GState} : Reachable st → Reachable (keySpace rand st)
  | mouse (relativeX : ℚ) {st : GState} : Reachable st → Reachable (mouseMove relativeX st)
  | toggle {st : GState} : Reachable st → Reachable (toggleAI st)

/-! ## Basic lemmas about the phases -/

/-- `aiControl` writes only `paddle.x`: every other field is untouched. -/
lemma aiControl_eq (st : GState) :
    aiControl st = { st with paddleX := (aiControl st).paddleX } := by
  unfold aiControl
  split <;> rfl

lemma aiControl_ball (st : GState) : (aiControl st).ball = st.ball := by
  rw [aiControl_eq]

lemma aiControl_gameOver (st : GState) : (aiControl st).gameOver = st.gameOver := by
  rw [aiControl_eq]

lemma aiControl_bricks (st : GState) : (aiControl st).bricks = st.bricks := by
  rw [aiControl_eq]

/-- When AI is on, `aiControl` lands the paddle inside `[0, canvasWidth - paddleWidth]`
whatever the projection produced. -/
lemma aiControl_paddleX_range (st : GState) (hAI : st.isAI = true) :
    0 ≤ (aiControl st).paddleX ∧ (aiControl st).paddleX ≤ canvasWidth - paddleWidth := by
  unfold aiControl
  rw [hAI]
  simp only [Bool.true_eq_false, if_false]
  set px := st.ball.x + st.ball.dx * ((paddleY - st.ball.y) / st.ball.dy) - paddleWidth / 2 with hpx
  by_cases h1 : px < 0
  · simp only [h1, if_true]
    norm_num [canvasWidth, paddleWidth]
  · by_cases h2 : px + paddleWidth > canvasWidth
    · simp only [h1, h2, if_false, if_true]
      norm_num [canvasWidth, paddleWidth]
    · simp only [h1, h2, if_false]
      constructor
      · exact le_of_not_lt h1
      · have := le_of_not_lt h2
        linarith

/-- A non-firing cell leaves the state untouched. -/
lemma collisionStep_noFire (rand : Bool) (st : GState) (cr : Nat × Nat)
    (h : fires st cr = false) : collisionStep rand st cr = st := by
  unfold collisionStep
  rw [h]
  rfl

/-- `brickHitEffect` does not move the ball, the paddle, the flags, the
lives or the level: only `dy`, one brick, the score and the sounds change. -/
lemma brickHitEffect_eq (st : GState) (cr : Nat × Nat) :
    brickHitEffect st cr =
      { st with ball := { st.ball with dy := -st.ball.dy },
                bricks := (brickHitEffect st cr).bricks,
                score := (brickHitEffect st cr).score,
                sounds := (brickHitEffect st cr).sounds } := by
  simp only [brickHitEffect]
  split
  · rfl
  · split <;> rfl

/-- Any invariant preserved by `collisionStep` is preserved by the whole
`collisionDetection` scan. -/
lemma foldl_collisionStep_inv (rand : Bool) {P : GState → Prop}
    (hP : ∀ st cr, P st → P (collisionStep rand st cr)) :
    ∀ (l : List (Nat × Nat)) (st : GState), P st → P (l.foldl (collisionStep rand) st)
  | [], st, h => h
  | cr :: l, st, h => foldl_collisionStep_inv rand hP l _ (hP st cr h)

/-- `collisionStep` never touches `paddleX`, `gameOver`, `paused`, `isAI`
or `lives`. -/
lemma collisionStep_frame (rand : Bool) (st : GState) (cr : Nat × Nat) :
    (collisionStep rand st cr).paddleX = st.paddleX ∧
    (collisionStep rand st cr).gameOver = st.gameOver ∧
    (collisionStep rand st cr).paused = st.paused ∧
    (collisionStep rand st cr).isAI = st.isAI ∧
    (collisionStep rand st cr).lives = st.lives := by
  simp only [collisionStep]
  split
  · rw [brickHitEffect_eq st cr]
    split <;> exact ⟨rfl, rfl, rfl, rfl, rfl⟩
  · exact ⟨rfl, rfl, rfl, rfl, rfl⟩

lemma collisionDetection_frame (rand : Bool) (st : GState) :
    (collisionDetection rand st).paddleX = st.paddleX ∧
    (collisionDetection rand st).gameOver = st.gameOver ∧
    (collisionDetection rand st).paused = st.paused ∧
    (collisionDetection rand st).isAI = st.isAI ∧
    (collisionDetection rand st).lives = st.lives := by
  unfold collisionDetection
  exact foldl_collisionStep_inv rand
    (P := fun s => s.paddleX = st.paddleX ∧ s.gameOver = st.gameOver ∧
      s.paused = st.paused ∧ s.isAI = st.isAI ∧ s.lives = st.lives)
    (fun s cr h => by
      obtain ⟨h1, h2, h3, h4, h5⟩ := collisionStep_frame rand s cr
      exact ⟨h1.trans h.1, h2.trans h.2.1, h3.trans h.2.2.1, h4.trans h.2.2.2.1,
             h5.trans h.2.2.2.2⟩)
    scanIndices st ⟨rfl, rfl, rfl, rfl, rfl⟩

/-- The monolithic `gameLoop` is the composition of its phases in source
order: move, wall/paddle/miss resolution, AI, brick resolution. -/
lemma gameLoop_decomp (rand : Bool) (st : GState) :
    gameLoop rand st =
      if st.gameOver || st.paused then st
      else collisionDetection rand (aiControl (bouncePhase rand (moveBall st))) := by
  rfl

/-- In the miss branch (bottom crossing without paddle overlap) with at most
one life left, `bouncePhase` sets `gameOver`. -/
lemma bouncePhase_miss_gameOver (rand : Bool) (st : GState)
    (hTop : ¬(st.ball.y + st.ball.dy < ballRadius))
    (hBot : st.ball.y + st.ball.dy > canvasHeight - ballRadius)
    (hMiss : ¬(st.ball.x > st.paddleX ∧ st.ball.x < st.paddleX + paddleWidth))
    (hLives : st.lives ≤ 1) :
    (bouncePhase rand st).gameOver = true := by
  simp only [bouncePhase]
  set st2 := (if st.ball.x + st.ball.dx > canvasWidth - ballRadius ∨
                 st.ball.x + st.ball.dx < ballRadius then
              { st with ball := { st.ball with dx := -st.ball.dx },
                        sounds := st.sounds ++ [330] }
              else st) with hst2
  have h2y : st2.ball.y = st.ball.y := by rw [hst2]; split <;> rfl
  have h2dy : st2.ball.dy = st.ball.dy := by rw [hst2]; split <;> rfl
  have h2x : st2.ball.x = st.ball.x := by rw [hst2]; split <;> rfl
  have h2p : st2.paddleX = st.paddleX := by rw [hst2]; split <;> rfl
  have h2l : st2.lives = st.lives := by rw [hst2]; split <;> rfl
  rw [if_neg (by rw [h2y, h2dy]; exact hTop),
      if_pos (by rw [h2y, h2dy]; exact hBot),
      if_neg (by rw [h2x, h2p]; exact hMiss),
      if_pos (by rw [h2l]; linarith)]

/-- Concrete state already in game over, for the C3 witness. -/
def stShowOver : GState := { initState with gameOver := true }

/-- Concrete state one tick away from a terminal miss (one life left, ball
about to cross the bottom with the paddle elsewhere), for the C3 witness. -/
def stShowMiss : GState :=
  { initState with ball := { x := 100, y := 310, dx := 4, dy := 4 }, lives := 1 }

/-- C3: a miss with the last life sets `gameOver`, and once `gameOver`
holds, `gameLoop` leaves the whole state (ball, paddle, bricks, counters)
untouched — only the external restart exits. -/
theorem c3_gameOver_terminal (rand : Bool) (st : GState) :
    (st.gameOver = true → gameLoop rand st = st) ∧
    (st.paused = false →
     ¬(st.ball.y + st.ball.dy + st.ball.dy < ballRadius) →
     st.ball.y + st.ball.dy + st.ball.dy > canvasHeight - ballRadius →
     ¬(st.ball.x + st.ball.dx > st.paddleX ∧
       st.ball.x + st.ball.dx < st.paddleX + paddleWidth) →
     st.lives ≤ 1 →
     (gameLoop rand st).gameOver = true) := by
  constructor
  · intro h
    rw [gameLoop_decomp, if_pos]
    rw [h]
    rfl
  · intro hp hTop hBot hMiss hLives
    by_cases hg : st.gameOver = true
    · rw [gameLoop_decomp, if_pos (by rw [hg]; rfl)]
      exact hg
    · rw [gameLoop_decomp,
          if_neg (by simp [Bool.eq_false_iff.mpr hg, hp])]
      rw [(collisionDetection_frame rand _).2.1, aiControl_gameOver]
      exact bouncePhase_miss_gameOver rand (moveBall st) hTop hBot hMiss hLives

/-- Witness for C3 at two concrete states: the terminal transition fires,
and a game-over state is left untouched by a tick. -/
theorem c3_gameOver_terminal_witness :
    (gameLoop true stShowMiss).gameOver = true ∧
    gameLoop false stShowOver = stShowOver :=
  ⟨(c3_gameOver_terminal true stShowMiss).2 rfl
      (by norm_num [stShowMiss, initState, ballRadius])
      (by norm_num [stShowMiss, initState, canvasHeight, ballRadius])
      (by norm_num [stShowMiss, initState, canvasWidth, paddleWidth])
      (by norm_num [stShowMiss, initState]),
   (c3_gameOver_terminal false stShowOver).1 rfl⟩

/-- Concrete paddle-center hit for the C8 witness: ball with velocity
`(4, -4)` whose lookahead crosses the paddle plane exactly above the
paddle center (`paddle.x = 200`, center `240`). -/
def stShowPaddleHit : GState :=
  { initState with ball := { x := 240, y := 317, dx := 4, dy := -4 }, paddleX := 200 }

/-- C8: whenever the paddle branch fires, the outgoing `dy` is `-|dy|`
(always upward) and the outgoing `dx` is the normalized hit offset from
the paddle center times the max deflection 5. -/
theorem c8_paddle_deflection (rand : Bool) (st : GState)
    (hTop : ¬(st.ball.y + st.ball.dy < ballRadius))
    (hBot : st.ball.y + st.ball.dy > canvasHeight - ballRadius)
    (hPad : st.ball.x > st.paddleX ∧ st.ball.x < st.paddleX + paddleWidth) :
    (bouncePhase rand st).ball.dx
        = (st.ball.x - (st.paddleX + paddleWidth / 2)) / (paddleWidth / 2) * 5 ∧
    (bouncePhase rand st).ball.dy = -|st.ball.dy| := by
  simp only [bouncePhase]
  set st2 := (if st.ball.x + st.ball.dx > canvasWidth - ballRadius ∨
                 st.ball.x + st.ball.dx < ballRadius then
              { st with ball := { st.ball with dx := -st.ball.dx },
                        sounds := st.sounds ++ [330] }
              else st) with hst2
  have h2y : st2.ball.y = st.ball.y := by rw [hst2]; split <;> rfl
  have h2dy : st2.ball.dy = st.ball.dy := by rw [hst2]; split <;> rfl
  have h2x : st2.ball.x = st.ball.x := by rw [hst2]; split <;> rfl
  have h2p : st2.paddleX = st.paddleX := by rw [hst2]; split <;> rfl
  rw [if_neg (by rw [h2y, h2dy]; exact hTop),
      if_pos (by rw [h2y, h2dy]; exact hBot),
      if_pos (by rw [h2x, h2p]; exact hPad)]
  exact ⟨by simp [h2x, h2p], by simp [h2dy]⟩

/-- Witness for C8: the spec scenario — velocity `(4, -4)`, hit offset 0 —
yields `dx = 0` and upward `dy` of magnitude 4. -/
theorem c8_paddle_deflection_witness :
    (bouncePhase true stShowPaddleHit).ball.dx = 0 ∧
    (bouncePhase true stShowPaddleHit).ball.dy = -4 := by
  have h := c8_paddle_deflection true stShowPaddleHit
    (by norm_num [stShowPaddleHit, initState, ballRadius])
    (by norm_num [stShowPaddleHit, initState, canvasHeight, ballRadius])
    (by norm_num [stShowPaddleHit, initState, paddleWidth])
  refine ⟨h.1.trans ?_, h.2.trans ?_⟩
  · norm_num [stShowPaddleHit, initState, paddleWidth]
  · norm_num [stShowPaddleHit, initState]

/-- Concrete left-wall bounce for the C9 witness. -/
def stShowWall : GState :=
  { initState with ball := { x := 2, y := 100, dx := -4, dy := 4 } }

/-- C9: whenever the tick does not enter the bottom branch (paddle/miss),
wall reflections — side wall negating `dx`, top wall negating `dy` —
preserve the ball speed magnitude exactly. -/
theorem c9_wall_speed_preserved (rand : Bool) (st : GState)
    (h : st.ball.y + st.ball.dy < ballRadius ∨
         ¬(st.ball.y + st.ball.dy > canvasHeight - ballRadius)) :
    Real.sqrt (((bouncePhase rand st).ball.dx : ℝ) ^ 2 +
               ((bouncePhase rand st).ball.dy : ℝ) ^ 2)
      = Real.sqrt ((st.ball.dx : ℝ) ^ 2 + (st.ball.dy : ℝ) ^ 2) := by
  have key : ((bouncePhase rand st).ball.dx : ℝ) ^ 2 +
               ((bouncePhase rand st).ball.dy : ℝ) ^ 2
      = (st.ball.dx : ℝ) ^ 2 + (st.ball.dy : ℝ) ^ 2 := by
    simp only [bouncePhase]
    set st2 := (if st.ball.x + st.ball.dx > canvasWidth - ballRadius ∨
                   st.ball.x + st.ball.dx < ballRadius then
                { st with ball := { st.ball with dx := -st.ball.dx },
                          sounds := st.sounds ++ [330] }
                else st) with hst2
    have h2y : st2.ball.y = st.ball.y := by rw [hst2]; split <;> rfl
    have h2dy : st2.ball.dy = st.ball.dy := by rw [hst2]; split <;> rfl
    have h2dx : st2.ball.dx = st.ball.dx ∨ st2.ball.dx = -st.ball.dx := by
      rw [hst2]; split
      · exact Or.inr rfl
      · exact Or.inl rfl
    by_cases ht : st2.ball.y + st2.ball.dy < ballRadius
    · rw [if_pos ht]
      rcases h2dx with h2 | h2 <;>
        simp only [h2, h2dy] <;> push_cast <;> ring
    · have hNoBot : ¬(st2.ball.y + st2.ball.dy > canvasHeight - ballRadius) := by
        rw [h2y, h2dy] at ht ⊢
        rcases h with hTop | hNB
        · exact absurd hTop ht
        · exact hNB
      rw [if_neg ht, if_neg hNoBot]
      rcases h2dx with h2 | h2 <;>
        simp only [h2, h2dy] <;> push_cast <;> ring
  rw [key]

/-- Witness for C9 at a concrete left-wall bounce. -/
theorem c9_wall_speed_preserved_witness :
    Real.sqrt (((bouncePhase true stShowWall).ball.dx : ℝ) ^ 2 +
               ((bouncePhase true stShowWall).ball.dy : ℝ) ^ 2)
      = Real.sqrt ((stShowWall.ball.dx : ℝ) ^ 2 + (stShowWall.ball.dy : ℝ) ^ 2) :=
  c9_wall_speed_preserved true stShowWall
    (Or.inr (by norm_num [stShowWall, initState, canvasHeight, ballRadius]))

/-! ## The vertical-velocity invariant -/

/-- A brick resolution only negates `dy` or (on level completion) resets it
to `-4`, so `dy ∈ {4, -4}` is preserved. -/
lemma collisionStep_dy (rand : Bool) (st : GState) (cr : Nat × Nat)
    (h : st.ball.dy = 4 ∨ st.ball.dy = -4) :
    (collisionStep rand st cr).ball.dy = 4 ∨ (collisionStep rand st cr).ball.dy = -4 := by
  simp only [collisionStep]
  split
  · have hdy : (brickHitEffect st cr).ball.dy = -st.ball.dy := by
      rw [brickHitEffect_eq]
    split
    · right; rfl
    · rcases h with h | h
      · right; simp [hdy, h]
      · left; simp [hdy, h]
  · exact h

/-- The wall / paddle / miss resolution preserves `dy ∈ {4, -4}`: walls
negate it, the paddle sets `-|dy|`, `resetBall` sets `-4`. -/
lemma bouncePhase_dy (rand : Bool) (st : GState)
    (h : st.ball.dy = 4 ∨ st.ball.dy = -4) :
    (bouncePhase rand st).ball.dy = 4 ∨ (bouncePhase rand st).ball.dy = -4 := by
  simp only [bouncePhase]
  set st2 := (if st.ball.x + st.ball.dx > canvasWidth - ballRadius ∨
                 st.ball.x + st.ball.dx < ballRadius then
              { st with ball := { st.ball with dx := -st.ball.dx },
                        sounds := st.sounds ++ [330] }
              else st) with hst2
  have h2dy : st2.ball.dy = st.ball.dy := by rw [hst2]; split <;> rfl
  have h2 : st2.ball.dy = 4 ∨ st2.ball.dy = -4 := by rw [h2dy]; exact h
  split
  · rcases h2 with h2 | h2
    · right; show -st2.ball.dy = -4; rw [h2]
    · left; show -st2.ball.dy = 4; rw [h2]; norm_num
  · split
    · split
      · right
        show -|st2.ball.dy| = -4
        rcases h2 with h2 | h2 <;> rw [h2] <;> norm_num
      · split
        · exact h2
        · right; rfl
    · exact h2

/-- One tick preserves `dy ∈ {4, -4}`. -/
lemma gameLoop_dy (rand : Bool) (st : GState)
    (h : st.ball.dy = 4 ∨ st.ball.dy = -4) :
    (gameLoop rand st).ball.dy = 4 ∨ (gameLoop rand st).ball.dy = -4 := by
  rw [gameLoop_decomp]
  split
  · exact h
  · have h1 : (moveBall st).ball.dy = 4 ∨ (moveBall st).ball.dy = -4 := h
    have h2 := bouncePhase_dy rand (moveBall st) h1
    have h3 : (aiControl (bouncePhase rand (moveBall st))).ball.dy = 4 ∨
        (aiControl (bouncePhase rand (moveBall st))).ball.dy = -4 := by
      rw [aiControl_ball]; exact h2
    simp only [collisionDetection] at *
    exact foldl_collisionStep_inv rand
      (P := fun s => s.ball.dy = 4 ∨ s.ball.dy = -4)
      (fun s cr hs => collisionStep_dy rand s cr hs) scanIndices _ h3

/-- The mousemove handler never touches the ball. -/
lemma mouseMove_ball (relativeX : ℚ) (st : GState) :
    (mouseMove relativeX st).ball = st.ball := by
  unfold mouseMove
  split
  · split <;> rfl
  · rfl

/-- The space handler (pause toggle, with the immediate tick on unpause)
preserves `dy ∈ {4, -4}`. -/
lemma keySpace_dy (rand : Bool) (st : GState)
    (h : st.ball.dy = 4 ∨ st.ball.dy = -4) :
    (keySpace rand st).ball.dy = 4 ∨ (keySpace rand st).ball.dy = -4 := by
  simp only [keySpace]
  split
  · exact h
  · split
    · exact gameLoop_dy rand _ h
    · exact h

/-- Shared invariant: in every reachable state the ball's vertical
velocity is exactly `4` or `-4`. -/
lemma reachable_dy : ∀ st : GState, Reachable st →
    st.ball.dy = 4 ∨ st.ball.dy = -4 := by
  intro st hr
  induction hr with
  | start rand => right; rfl
  | tick rand _ ih => exact gameLoop_dy _ _ ih
  | kRight _ ih => exact ih
  | kLeft _ ih => exact ih
  | kSpace rand _ ih => exact keySpace_dy _ _ ih
  | mouse relativeX _ ih => rw [mouseMove_ball]; exact ih
  | toggle _ ih => exact ih

/-- C10: in every reachable state of the simulation the ball's vertical
velocity is exactly `+4` or `-4` — the initial value, wall and brick
reflections (which only negate it), paddle hits (`dy := -|dy|`) and ball
resets (`dy := -4`) all keep `|dy| = 4`; in particular `dy` is never 0. -/
theorem c10_dy_always_pm4 (st : GState) (h : Reachable st) :
    st.ball.dy = 4 ∨ st.ball.dy = -4 :=
  reachable_dy st h

/-- Witness for C10 at the startup state. -/
theorem c10_dy_always_pm4_witness :
    (startState true).ball.dy = 4 ∨ (startState true).ball.dy = -4 :=
  c10_dy_always_pm4 (startState true) (Reachable.start true)

/-- Concrete state with AI enabled and `ball.dy = 0` for the C2
counterexample. -/
def stShowDy0 : GState :=
  { initState with ball := { x := 240, y := 160, dx := 4, dy := 0 }, paddleX := 37 }

/-- C2 counterexample: `aiControl` contains no `ball.dy == 0` guard — at a
state with AI enabled and `dy = 0` the projection is *not* skipped: the
paddle position is still assigned (the state changes).  (In this `ℚ` model
the zero division yields `0`; under JS float semantics it yields a
non-finite value — under both, the assignment happens.) -/
theorem c2_counterexample :
    stShowDy0.isAI = true ∧ stShowDy0.ball.dy = 0 ∧ aiControl stShowDy0 ≠ stShowDy0 := by
  refine ⟨rfl, rfl, fun hEq => ?_⟩
  have h := congrArg GState.paddleX hEq
  norm_num [aiControl, stShowDy0, initState, paddleY, paddleWidth,
            canvasWidth, canvasHeight] at h

/-- C2 amended: the code never skips the AI projection (there is no
`dy == 0` guard), but the division is well-defined on every tick that can
actually occur, because in every reachable state `ball.dy ≠ 0`. -/
theorem c2_projection_divisor_nonzero (st : GState) (h : Reachable st) :
    st.ball.dy ≠ 0 := by
  rcases reachable_dy st h with h4 | h4 <;> rw [h4] <;> norm_num

/-- Witness for C2 (amended) at the startup state. -/
theorem c2_projection_divisor_nonzero_witness : (startState true).ball.dy ≠ 0 :=
  c2_projection_divisor_nonzero (startState true) (Reachable.start true)

/-! ## Tick phase order -/

/-- The tick in the phase order the spec describes (for comparison with
`gameLoop`): (1) apply AI to the paddle, (2) integrate the ball,
(3) run the collision resolver — walls/paddle then bricks — on the
post-integration position, state transitions included in the resolver. -/
def gameLoopSpecOrder (rand : Bool) (st : GState) : GState :=
  if st.gameOver || st.paused then st
  else collisionDetection rand (bouncePhase rand (moveBall (aiControl st)))

/-- Concrete state distinguishing the source's phase order from the
spec's: the ball bounces off the top wall this tick, so the AI sees a
different `dy` depending on whether it runs before or after the wall
resolution. -/
def stShowOrder : GState :=
  { initState with ball := { x := 100, y := 10, dx := 4, dy := -4 }, paddleX := 37 }

/-- C4 counterexample: the tick does *not* perform AI before integration
and collision — running the spec's order on a concrete state yields a
different result (the paddle lands at 358 under the code's order,
at 0 under the spec's order). -/
theorem c4_counterexample :
    (gameLoop true stShowOrder).paddleX ≠ (gameLoopSpecOrder true stShowOrder).paddleX := by
  intro h
  rw [gameLoop_decomp] at h
  norm_num [gameLoopSpecOrder, stShowOrder, initState, moveBall, bouncePhase, aiControl,
            canvasWidth, canvasHeight, ballRadius, paddleWidth, paddleY] at h
  rw [(collisionDetection_frame true _).1, (collisionDetection_frame true _).1] at h
  norm_num at h

/-- C4 (amended): each non-suspended tick performs its phases in the fixed
source order — integrate the ball by its velocity, then wall/paddle/miss
resolution (with its life-loss and game-over transitions) against the
post-integration position, then AI paddle control, then brick collision
resolution (with its level-completion transition); sound events accumulate
across the phases and the frame is drawn afterwards (mutating nothing). -/
theorem c4_phase_order (rand : Bool) (st : GState)
    (hOver : st.gameOver = false) (hPaused : st.paused = false) :
    gameLoop rand st =
      collisionDetection rand (aiControl (bouncePhase rand (moveBall st))) := by
  rw [gameLoop_decomp, if_neg]
  rw [hOver, hPaused]
  simp

/-- Witness for C4 (amended) at the startup state. -/
theorem c4_phase_order_witness :
    gameLoop true (startState true) =
      collisionDetection true (aiControl (bouncePhase true (moveBall (startState true)))) :=
  c4_phase_order true (startState true) rfl rfl

/-! ## Paddle range invariant -/

/-- The wall / paddle / miss resolution never moves the paddle. -/
lemma bouncePhase_paddleX (rand : Bool) (st : GState) :
    (bouncePhase rand st).paddleX = st.paddleX := by
  simp only [bouncePhase]
  set st2 := (if st.ball.x + st.ball.dx > canvasWidth - ballRadius ∨
                 st.ball.x + st.ball.dx < ballRadius then
              { st with ball := { st.ball with dx := -st.ball.dx },
                        sounds := st.sounds ++ [330] }
              else st) with hst2
  have h2p : st2.paddleX = st.paddleX := by rw [hst2]; split <;> rfl
  rw [← h2p]
  split
  · rfl
  · split
    · split
      · rfl
      · split
        · rfl
        · rfl
    · rfl

/-- When AI is off, `aiControl` is the identity. -/
lemma aiControl_off (st : GState) (h : st.isAI = false) : aiControl st = st := by
  simp [aiControl, h]

/-- One tick keeps the paddle inside `[0, canvasWidth - paddleWidth]`. -/
lemma gameLoop_paddle_range (rand : Bool) (st : GState)
    (h : 0 ≤ st.paddleX ∧ st.paddleX ≤ canvasWidth - paddleWidth) :
    0 ≤ (gameLoop rand st).paddleX ∧
    (gameLoop rand st).paddleX ≤ canvasWidth - paddleWidth := by
  rw [gameLoop_decomp]
  split
  · exact h
  · rw [(collisionDetection_frame rand _).1]
    by_cases hA : (bouncePhase rand (moveBall st)).isAI = true
    · exact aiControl_paddleX_range _ hA
    · rw [aiControl_off _ (Bool.eq_false_iff.mpr hA), bouncePhase_paddleX]
      exact h

/-- The space handler keeps the paddle inside the field. -/
lemma keySpace_paddle_range (rand : Bool) (st : GState)
    (h : 0 ≤ st.paddleX ∧ st.paddleX ≤ canvasWidth - paddleWidth) :
    0 ≤ (keySpace rand st).paddleX ∧
    (keySpace rand st).paddleX ≤ canvasWidth - paddleWidth := by
  simp only [keySpace]
  split
  · exact h
  · split
    · exact gameLoop_paddle_range rand _ h
    · exact h

/-- Shared invariant: in every reachable state the paddle is inside
`[0, canvasWidth - paddleWidth]`. -/
lemma reachable_paddle_range : ∀ st : GState, Reachable st →
    0 ≤ st.paddleX ∧ st.paddleX ≤ canvasWidth - paddleWidth := by
  intro st hr
  induction hr with
  | start rand =>
      norm_num [startState, resetLevel, resetBall, initState, canvasWidth, paddleWidth]
  | tick rand _ ih => exact gameLoop_paddle_range _ _ ih
  | kRight _ ih =>
      constructor
      · apply le_min
        · linarith [ih.1, show (0:ℚ) ≤ paddleSpeed by norm_num [paddleSpeed]]
        · norm_num [canvasWidth, paddleWidth]
      · exact min_le_right _ _
  | kLeft _ ih =>
      constructor
      · exact le_max_right _ _
      · apply max_le
        · linarith [ih.2, show (0:ℚ) ≤ paddleSpeed by norm_num [paddleSpeed]]
        · norm_num [canvasWidth, paddleWidth]
  | kSpace rand _ ih => exact keySpace_paddle_range _ _ ih
  | mouse relativeX _ ih =>
      simp only [mouseMove]
      split
      · split
        · constructor
          · exact le_max_left _ _
          · apply max_le
            · norm_num [canvasWidth, paddleWidth]
            · exact min_le_right _ _
        · exact ih
      · exact ih
  | toggle _ ih => exact ih

/-- C6: after every paddle update — AI, keyboard or pointer driven — and
after every tick, the paddle's `x` lies within
`[0, canvasWidth - paddleWidth]`, for all reachable states. -/
theorem c6_paddle_in_field (st : GState) (h : Reachable st) :
    0 ≤ st.paddleX ∧ st.paddleX ≤ canvasWidth - paddleWidth :=
  reachable_paddle_range st h

/-- Witness for C6 at the startup state. -/
theorem c6_paddle_in_field_witness :
    0 ≤ (startState false).paddleX ∧
    (startState false).paddleX ≤ canvasWidth - paddleWidth :=
  c6_paddle_in_field (startState false) (Reachable.start false)

/-! ## Brick type lifecycle -/

/-- Updating a cell and reading it back. -/
lemma getD_set_self (l : List Brick) (i : Nat) (x : Brick) (h : i < l.length) :
    (l.set i x).getD i ⟨0, 0⟩ = x := by
  rw [List.getD_eq_getElem _ _ (by simpa using h)]
  simp [List.getElem_set_self]

/-- What a single brick resolution does to the resolved cell and the
score, as a function of the cell's type. -/
lemma brickHitEffect_spec (st : GState) (cr : Nat × Nat)
    (hlen : brickIdx cr < st.bricks.length) :
    (brickHitEffect st cr).bricks.length = st.bricks.length ∧
    (brickHitEffect st cr).bricks.getD (brickIdx cr) ⟨0, 0⟩ =
      (if (st.bricks.getD (brickIdx cr) ⟨0, 0⟩).ty = 1 then
        { st.bricks.getD (brickIdx cr) ⟨0, 0⟩ with status := 0 }
       else if (st.bricks.getD (brickIdx cr) ⟨0, 0⟩).ty = 2 then
        { st.bricks.getD (brickIdx cr) ⟨0, 0⟩ with ty := 1 }
       else { st.bricks.getD (brickIdx cr) ⟨0, 0⟩ with status := 0 }) ∧
    (brickHitEffect st cr).score =
      (if (st.bricks.getD (brickIdx cr) ⟨0, 0⟩).ty = 1 then st.score + 10
       else if (st.bricks.getD (brickIdx cr) ⟨0, 0⟩).ty = 2 then st.score
       else st.score + 30) := by
  simp only [brickHitEffect]
  split
  · exact ⟨by simp, getD_set_self _ _ _ hlen, rfl⟩
  · split
    · exact ⟨by simp, getD_set_self _ _ _ hlen, rfl⟩
    · exact ⟨by simp, getD_set_self _ _ _ hlen, rfl⟩

/-- C5: hit effects by brick type — a reinforced brick (type 2) is
downgraded to normal keeping its status and adding no score; a normal
brick (type 1) is destroyed for +10; a bonus brick (type 3) is destroyed
for +30; and a reinforced brick hit twice ends destroyed with exactly the
normal +10 from the second hit. -/
theorem c5_brick_type_lifecycle (st : GState) (cr : Nat × Nat)
    (hlen : brickIdx cr < st.bricks.length) :
    ((st.bricks.getD (brickIdx cr) ⟨0, 0⟩).ty = 2 →
      ((brickHitEffect st cr).bricks.getD (brickIdx cr) ⟨0, 0⟩).status
          = (st.bricks.getD (brickIdx cr) ⟨0, 0⟩).status ∧
      ((brickHitEffect st cr).bricks.getD (brickIdx cr) ⟨0, 0⟩).ty = 1 ∧
      (brickHitEffect st cr).score = st.score) ∧
    ((st.bricks.getD (brickIdx cr) ⟨0, 0⟩).ty = 1 →
      ((brickHitEffect st cr).bricks.getD (brickIdx cr) ⟨0, 0⟩).status = 0 ∧
      (brickHitEffect st cr).score = st.score + 10) ∧
    ((st.bricks.getD (brickIdx cr) ⟨0, 0⟩).ty = 3 →
      ((brickHitEffect st cr).bricks.getD (brickIdx cr) ⟨0, 0⟩).status = 0 ∧
      (brickHitEffect st cr).score = st.score + 30) ∧
    ((st.bricks.getD (brickIdx cr) ⟨0, 0⟩).ty = 2 →
      ((brickHitEffect (brickHitEffect st cr) cr).bricks.getD
          (brickIdx cr) ⟨0, 0⟩).status = 0 ∧
      (brickHitEffect (brickHitEffect st cr) cr).score = st.score + 10) := by
  obtain ⟨hlen1, hcell1, hscore1⟩ := brickHitEffect_spec st cr hlen
  refine ⟨?_, ?_, ?_, ?_⟩
  · intro h2
    rw [hcell1, hscore1, h2]
    norm_num
  · intro h1
    rw [hcell1, hscore1, h1]
    norm_num
  · intro h3
    rw [hcell1, hscore1, h3]
    norm_num
  · intro h2
    obtain ⟨_, hcell2, hscore2⟩ :=
      brickHitEffect_spec (brickHitEffect st cr) cr (by rw [hlen1]; exact hlen)
    rw [hcell1, h2] at hcell2 hscore2
    norm_num at hcell2 hscore2
    constructor
    · rw [List.getD_eq_getElem?_getD, hcell2]
    · rw [hscore2, hscore1, h2]
      norm_num

/-- Concrete state with a reinforced brick under the ball (cell `(0, 1)`
of the fresh grid), for the C5 witness. -/
def stShowBrick : GState :=
  { initState with ball := { x := 35, y := 75, dx := 4, dy := -4 } }

/-- Witness for C5 at a concrete reinforced cell: first hit downgrades to
a live normal brick with no score, second hit destroys it for +10. -/
theorem c5_brick_type_lifecycle_witness :
    ((brickHitEffect stShowBrick (0, 1)).bricks.getD (brickIdx (0, 1)) ⟨0, 0⟩).ty = 1 ∧
    (brickHitEffect stShowBrick (0, 1)).score = stShowBrick.score ∧
    ((brickHitEffect (brickHitEffect stShowBrick (0, 1)) (0, 1)).bricks.getD
        (brickIdx (0, 1)) ⟨0, 0⟩).status = 0 ∧
    (brickHitEffect (brickHitEffect stShowBrick (0, 1)) (0, 1)).score
        = stShowBrick.score + 10 := by
  have h := c5_brick_type_lifecycle stShowBrick (0, 1) (by decide)
  have h2 : (stShowBrick.bricks.getD (brickIdx (0, 1)) ⟨0, 0⟩).ty = 2 := by decide
  exact ⟨(h.1 h2).2.1, (h.1 h2).2.2, (h.2.2.2 h2).1, (h.2.2.2 h2).2⟩

/-! ## Level completion -/

/-- C7: when a brick resolution empties the grid, the level counter goes
up by exactly 1, the grid is wholly regenerated — every cell alive with
the original per-row types — the ball is reset, and neither `gameOver`
nor `paused` changes (the game stays in its playing state). -/
theorem c7_level_complete (rand : Bool) (st : GState) (cr : Nat × Nat)
    (hf : fires st cr = true)
    (hc : checkLevelComplete (brickHitEffect st cr) = true) :
    (collisionStep rand st cr).level = st.level + 1 ∧
    (collisionStep rand st cr).bricks = initBricks ∧
    (∀ b ∈ (collisionStep rand st cr).bricks, b.status = 1) ∧
    (∀ c, c < brickColumnCount → ∀ r, r < brickRowCount →
      ((collisionStep rand st cr).bricks.getD (brickIdx (c, r)) ⟨0, 0⟩).ty = r + 1) ∧
    (collisionStep rand st cr).ball =
      { x := canvasWidth / 2, y := canvasHeight - 30,
        dx := if rand then 4 else -4, dy := -4 } ∧
    (collisionStep rand st cr).gameOver = st.gameOver ∧
    (collisionStep rand st cr).paused = st.paused := by
  have hlev : (brickHitEffect st cr).level = st.level := by rw [brickHitEffect_eq]
  have hgo : (brickHitEffect st cr).gameOver = st.gameOver := by rw [brickHitEffect_eq]
  have hpa : (brickHitEffect st cr).paused = st.paused := by rw [brickHitEffect_eq]
  simp only [collisionStep]
  rw [if_pos hf, if_pos hc]
  refine ⟨?_, rfl, ?_, ?_, rfl, ?_, ?_⟩
  · show (brickHitEffect st cr).level + 1 = st.level + 1
    rw [hlev]
  · show ∀ b ∈ initBricks, b.status = 1
    decide
  · show ∀ c, c < brickColumnCount → ∀ r, r < brickRowCount →
        (initBricks.getD (brickIdx (c, r)) ⟨0, 0⟩).ty = r + 1
    decide
  · exact hgo
  · exact hpa

/-- Concrete state whose only live brick (a normal one, under the ball) is
about to be destroyed, for the C7 witness. -/
def stShowLast : GState :=
  { initState with ball := { x := 35, y := 45, dx := 4, dy := -4 },
                   bricks := ⟨1, 1⟩ :: List.replicate 20 ⟨0, 1⟩ }

/-- Witness for C7: destroying the last brick bumps the level and
regenerates the full grid without suspending play. -/
theorem c7_level_complete_witness :
    (collisionStep true stShowLast (0, 0)).level = stShowLast.level + 1 ∧
    (collisionStep true stShowLast (0, 0)).bricks = initBricks ∧
    (collisionStep true stShowLast (0, 0)).gameOver = stShowLast.gameOver := by
  have hf : fires stShowLast (0, 0) = true := by
    simp only [fires, overlapsBrick, stShowLast, initState, brickIdx, brickX, brickY,
               brickRowCount, brickWidth, brickHeight, brickPadding, brickOffsetTop,
               brickOffsetLeft]
    norm_num
  have hc : checkLevelComplete (brickHitEffect stShowLast (0, 0)) = true := by decide
  have h := c7_level_complete true stShowLast (0, 0) hf hc
  exact ⟨h.1, h.2.1, h.2.2.2.2.2.1⟩

/-! ## At most one brick resolved per scan -/

/-- The `collisionDetection` double loop instrumented with a counter: fold
`collisionStep` over the scan order, counting the cells whose resolution
guard fired against the state current when the loop visited them. -/
def fireCountGo (rand : Bool) : List (Nat × Nat) → GState × Nat → GState × Nat
  | [], p => p
  | cr :: l, (st, n) =>
      fireCountGo rand l (collisionStep rand st cr, n + (if fires st cr then 1 else 0))

/-- How many cells the `collisionDetection` scan resolves from state `st`. -/
def firedCount (rand : Bool) (st : GState) : Nat :=
  (fireCountGo rand scanIndices (st, 0)).2

/-- The instrumented scan carries exactly the `collisionDetection` fold. -/
lemma fireCountGo_fst (rand : Bool) :
    ∀ (l : List (Nat × Nat)) (st : GState) (n : Nat),
      (fireCountGo rand l (st, n)).1 = l.foldl (collisionStep rand) st
  | [], _, _ => rfl
  | _ :: l, st, n => fireCountGo_fst rand l _ _

/-- A scan over cells none of which fires leaves state and counter alone. -/
lemma fireCountGo_noFire (rand : Bool) :
    ∀ (l : List (Nat × Nat)) (st : GState) (n : Nat),
      (∀ cr ∈ l, fires st cr = false) → fireCountGo rand l (st, n) = (st, n) := by
  intro l
  induction l with
  | nil => intro st n _; rfl
  | cons cr l ih =>
      intro st n h
      have hcr := h cr (List.mem_cons_self cr l)
      simp only [fireCountGo, hcr, if_false, collisionStep_noFire rand st cr hcr]
      exact ih st (n + 0) (fun cr' hm => h cr' (List.mem_cons_of_mem cr hm))

/-- The overlap test only reads the ball position. -/
lemma overlapsBrick_congr (b b' : Ball) (hx : b'.x = b.x) (hy : b'.y = b.y) (c r : Nat) :
    overlapsBrick b' c r = overlapsBrick b c r := by
  simp only [overlapsBrick, hx, hy]

/-- Grid cells are pairwise disjoint open rectangles, so a point strictly
inside one cell is outside every other cell. -/
lemma overlapsBrick_unique {c r c' r' : Nat}
    (hc : c < brickColumnCount) (hr : r < brickRowCount)
    (hc' : c' < brickColumnCount) (hr' : r' < brickRowCount)
    (hne : (c, r) ≠ (c', r')) (b : Ball)
    (hover : overlapsBrick b c r = true) : overlapsBrick b c' r' = false := by
  simp only [overlapsBrick, decide_eq_true_eq, brickX, brickY, brickWidth, brickHeight,
             brickPadding, brickOffsetTop, brickOffsetLeft] at hover
  simp only [overlapsBrick, decide_eq_false_iff_not, brickX, brickY, brickWidth,
             brickHeight, brickPadding, brickOffsetTop, brickOffsetLeft]
  obtain ⟨h1, h2, h3, h4⟩ := hover
  rintro ⟨g1, g2, g3, g4⟩
  rcases Nat.lt_trichotomy c c' with hlt | heq | hgt
  · have hcast : (c : ℚ) + 1 ≤ (c' : ℚ) := by exact_mod_cast Nat.succ_le_of_lt hlt
    linarith
  · subst heq
    rcases Nat.lt_trichotomy r r' with hlt | heq | hgt
    · have hcast : (r : ℚ) + 1 ≤ (r' : ℚ) := by exact_mod_cast Nat.succ_le_of_lt hlt
      linarith
    · exact hne (by rw [heq])
    · have hcast : (r' : ℚ) + 1 ≤ (r : ℚ) := by exact_mod_cast Nat.succ_le_of_lt hgt
      linarith
  · have hcast : (c' : ℚ) + 1 ≤ (c : ℚ) := by exact_mod_cast Nat.succ_le_of_lt hgt
    linarith

/-- After a cell fires, no other (in-grid) cell can fire for the rest of
the scan: without a level reset the ball position is unchanged and lies
outside every other cell; after a level reset the ball is recentered to
`y = 290`, below the whole grid. -/
lemma collisionStep_kills (rand : Bool) (st : GState) (cr cr' : Nat × Nat)
    (hcr : cr.1 < brickColumnCount ∧ cr.2 < brickRowCount)
    (hcr' : cr'.1 < brickColumnCount ∧ cr'.2 < brickRowCount)
    (hne : cr' ≠ cr)
    (hf : fires st cr = true) :
    fires (collisionStep rand st cr) cr' = false := by
  have hover : overlapsBrick st.ball cr.1 cr.2 = true :=
    (Bool.and_eq_true _ _ |>.mp hf).2
  have hne2 : (cr.1, cr.2) ≠ (cr'.1, cr'.2) := by
    intro h
    exact hne (Prod.ext (congrArg Prod.fst h).symm (congrArg Prod.snd h).symm)
  simp only [collisionStep, hf, if_true]
  split
  · -- level reset: the recentered ball is below the whole grid
    have : overlapsBrick { x := canvasWidth / 2, y := canvasHeight - 30,
                           dx := if rand then 4 else -4, dy := -4 } cr'.1 cr'.2 = false := by
      simp only [overlapsBrick, decide_eq_false_iff_not, brickY, brickHeight,
                 brickPadding, brickOffsetTop, canvasHeight]
      rintro ⟨-, -, -, g4⟩
      have hcast : (cr'.2 : ℚ) ≤ 2 := by
        have := Nat.lt_succ_iff.mp (by simpa [brickRowCount] using hcr'.2)
        exact_mod_cast this
      linarith
    simp [fires, resetLevel, resetBall, this]
  · -- no reset: ball position unchanged, disjointness applies
    have hx : (brickHitEffect st cr).ball.x = st.ball.x := by rw [brickHitEffect_eq]
    have hy : (brickHitEffect st cr).ball.y = st.ball.y := by rw [brickHitEffect_eq]
    have : overlapsBrick (brickHitEffect st cr).ball cr'.1 cr'.2 = false := by
      rw [overlapsBrick_congr _ _ hx hy]
      exact overlapsBrick_unique hcr.1 hcr.2 hcr'.1 hcr'.2 hne2 st.ball hover
    simp [fires, this]

/-- Along any duplicate-free list of in-grid cells, at most one cell fires. -/
lemma fireCountGo_le_one (rand : Bool) :
    ∀ (l : List (Nat × Nat)), l.Nodup →
      (∀ cr ∈ l, cr.1 < brickColumnCount ∧ cr.2 < brickRowCount) →
      ∀ st : GState, (fireCountGo rand l (st, 0)).2 ≤ 1 := by
  intro l
  induction l with
  | nil => intro _ _ st; exact Nat.zero_le 1
  | cons cr l ih =>
      intro hnd hv st
      by_cases hf : fires st cr = true
      · have hnofire : ∀ cr' ∈ l, fires (collisionStep rand st cr) cr' = false := by
          intro cr' hmem
          refine collisionStep_kills rand st cr cr'
            (hv cr (List.mem_cons_self cr l)) (hv cr' (List.mem_cons_of_mem cr hmem))
            (fun he => ?_) hf
          exact (List.nodup_cons.mp hnd).1 (he ▸ hmem)
        simp only [fireCountGo, hf, if_true]
        rw [fireCountGo_noFire rand l _ _ hnofire]
      · have hf0 : fires st cr = false := Bool.eq_false_iff.mpr hf
        simp only [fireCountGo, hf0, if_false, collisionStep_noFire rand st cr hf0]
        exact ih (List.nodup_cons.mp hnd).2
          (fun cr' hm => hv cr' (List.mem_cons_of_mem cr hm)) st

/-- C1: one `collisionDetection` scan (one tick) resolves at most one
brick — the counter of fired cells along the very fold that
`collisionDetection` performs never exceeds 1. -/
theorem c1_at_most_one_brick (rand : Bool) (st : GState) :
    firedCount rand st ≤ 1 ∧
    (fireCountGo rand scanIndices (st, 0)).1 = collisionDetection rand st := by
  constructor
  · exact fireCountGo_le_one rand scanIndices (by decide) (by decide) st
  · rw [fireCountGo_fst]
    rfl
